import Mathlib

/-!
Shallow embedding of `specmatchemp/match.py` (classes `Match` and
`MatchLincomb`).

Conventions of the embedding:
* numpy float arrays become `List ℚ`; numpy element-wise arithmetic on
  equal-length arrays becomes `List.zipWith` (the source always combines
  arrays of the common grid length, where the two coincide);
* external collaborators that the spec declares out of scope — the
  rotational-kernel generator `specmatchemp.kernels.rot`, scipy's
  `convolve1d`, `LSQUnivariateSpline`, `np.sqrt` (the one float operation
  with no exact rational counterpart) and the two `lmfit.minimize`
  strategies — are fields of an `ExtLib` record that every operation takes as a
  parameter; theorems hold for every instantiation of `ExtLib`;
* Python attributes that are only assigned later (`s_mod`, `serr_mod`,
  `spl`) are `Option`-valued, `none` meaning "never assigned" (reading them
  then raises `AttributeError`); `best_chisq` starts as `np.NaN`, modelled
  as `none`;
* code that can raise returns `Option`/`Except`: `none` models an
  uncaught Python exception (`KeyError` from a missing parameter name,
  `IndexError` from list indexing, `TypeError` from `None + float`,
  `NameError` from the undefined `out` when `opt` is unrecognized).
-/

/-- One entry of an `lmfit.Parameters` container: value, bounds and
vary-flag.  `none` bounds model lmfit's default infinite bounds. -/
structure ParamEntry where
  value : ℚ
  vmin : Option ℚ
  vmax : Option ℚ
  vary : Bool
  deriving DecidableEq, Repr

/-- `lmfit.Parameters` is an ordered dictionary from names to parameters;
modelled as an association list. -/
abbrev Params := List (String × ParamEntry)

/-- Dictionary lookup `params[name]`, `none` modelling `KeyError`. -/
def Params.get? : Params → String → Option ParamEntry
  | [], _ => none
  | (k, e) :: tl, n => if k = n then some e else Params.get? tl n

/-- Whether the container already holds a parameter of this name. -/
def Params.hasKey : Params → String → Bool
  | [], _ => false
  | (k, _) :: tl, n => if k = n then true else Params.hasKey tl n

/-- `lmfit.Parameters.add(name, value, min, max, vary)`: dictionary
assignment, replacing an existing entry of the same name in place and
appending otherwise. -/
def Params.add (ps : Params) (n : String) (v : ℚ) (mn mx : Option ℚ)
    (vr : Bool) : Params :=
  let e : ParamEntry := ⟨v, mn, mx, vr⟩
  if Params.hasKey ps n then
    ps.map (fun kv => if kv.1 = n then (n, e) else kv)
  else
    ps ++ [(n, e)]

/-- Value returned by an objective function: either a residual vector (what
`lmfit`'s least-squares driver consumes) or a scalar chi-square (what the
Nelder-Mead driver consumes). -/
inductive ObjVal where
  | vec (r : List ℚ)
  | scalar (c : ℚ)
  deriving DecidableEq, Repr

/-- Python exception kinds relevant to the embedded code.  The code under
`src/` only ever raises `attributeError` (reading a never-assigned model
attribute); `invalidState` is the explicit error kind the specification
postulates, included so that statements can compare the two. -/
inductive PyErr where
  | attributeError (n : String)
  | invalidState
  deriving DecidableEq, Repr

/-- External collaborators (out-of-scope leaves per the spec), as opaque
function parameters.  `rotKernel n dv vsini` returns the `(varr, kernel)`
pair of `specmatchemp.kernels.rot`; `splineEval x y knots` is
`LSQUnivariateSpline(x, y, knots)` evaluated back at `x`; the two
minimizers return the optimizer's resulting parameter container
(`out.params`) given the objective callback and starting parameters. -/
structure ExtLib where
  sqrtFn : ℚ → ℚ
  splineEval : List ℚ → List ℚ → List ℚ → List ℚ
  rotKernel : ℕ → ℚ → ℚ → List ℚ × List ℚ
  convolve1d : List ℚ → List ℚ → List ℚ
  minimizeLm : (Params → Option ObjVal) → Params → Params
  minimizeNelder : (Params → Option ObjVal) → Params → Params

/-- `SPEED_OF_LIGHT = 2.99792e5` (km/s) from `Match.broaden`. -/
def SPEED_OF_LIGHT : ℚ := 299792

/-- `Match.broaden(vsini, spec)`: build the 151-point rotational kernel
from the velocity spacing of the first two grid samples and convolve.
(The source indexes `w[0]` and `w[1]`, requiring a grid of length ≥ 2;
`getD` totalizes the read, which is irrelevant because the kernel and
convolution are opaque `ExtLib` fields.) -/
def broaden (ext : ExtLib) (w : List ℚ) (vsini : ℚ) (sp : List ℚ) : List ℚ :=
  let dv := (w.getD 1 0 - w.getD 0 0) / w.getD 0 0 * SPEED_OF_LIGHT
  ext.convolve1d sp ((ext.rotKernel 151 dv vsini).2)

/-- Spline-knot indices chosen by both constructors:
`interval = int(len(w)/6)`, knots at `interval*i` for `i = 1..5`. -/
def knotIndices (n : ℕ) : List ℕ :=
  (List.range 5).map (fun i => n / 6 * (i + 1))

/-- The knot wavelengths `w[interval*i]`; `none` models the `IndexError`
raised when an index falls outside the grid. -/
def knots (w : List ℚ) : Option (List ℚ) :=
  (knotIndices w.length).mapM (fun i => w[i]?)

/-- `np.sum(residuals**2)`. -/
def chiSquare (r : List ℚ) : ℚ := (r.map (fun x => x ^ 2)).sum

/-- Residual computation shared by `Match.objective`,
`MatchLincomb.objective` (via `super()`) and `Match.best_residuals`:
`data - model`, divided element-wise by
`np.sqrt(serr_targ**2 + serr_mod**2)` in `normalized` mode. -/
def residualsCalc (ext : ExtLib) (mode : String)
    (s_targ serr_targ s_mod serr_mod : List ℚ) : List ℚ :=
  if mode = "normalized" then
    List.zipWith (· / ·) (List.zipWith (· - ·) s_targ s_mod)
      (List.zipWith (fun a b => ext.sqrtFn (a ^ 2 + b ^ 2)) serr_targ serr_mod)
  else
    List.zipWith (· - ·) s_targ s_mod

/-- Body of `Match.objective` after the model has been built: compute the
residuals, the chi-square, and branch on the optimizer kind.  The inner
`Option` is the Python return value — `none` is the fall-through `return
None` when `opt` is neither `lm` nor `nelder`. -/
def objectiveBody (ext : ExtLib) (mode opt : String)
    (s_targ serr_targ s_mod serr_mod : List ℚ) : Option ObjVal :=
  let residuals := residualsCalc ext mode s_targ serr_targ s_mod serr_mod
  let chi_square := chiSquare residuals
  if opt = "lm" then some (.vec residuals)
  else if opt = "nelder" then some (.scalar chi_square)
  else none

/-- State of a `Match` instance.  Fields mirror the attributes assigned in
`Match.__init__` (with the 2-d `s_targ`/`s_ref` arguments split into their
flux and uncertainty rows) plus the model attributes assigned later by
`create_model`. -/
structure Match where
  w : List ℚ
  s_targ : List ℚ
  serr_targ : List ℚ
  s_ref : List ℚ
  serr_ref : List ℚ
  best_params : Params
  best_chisq : Option ObjVal
  mode : String
  opt : String
  knot_x : List ℚ
  s_mod : Option (List ℚ)
  serr_mod : Option (List ℚ)
  spl : Option (List ℚ)
  deriving DecidableEq, Repr

/-- `Match.__init__`: copy the inputs, initialize `best_params` empty and
`best_chisq` to NaN, and compute the five spline knots.  No shape
validation of any kind is performed.  `none` models the `IndexError` from
the knot computation on a too-short grid. -/
def Match.init (wav s_t serr_t s_r serr_r : List ℚ) (mode opt : String) :
    Option Match :=
  (knots wav).map fun kx =>
    { w := wav, s_targ := s_t, serr_targ := serr_t, s_ref := s_r,
      serr_ref := serr_r, best_params := [], best_chisq := none,
      mode := mode, opt := opt, knot_x := kx,
      s_mod := none, serr_mod := none, spl := none }

/-- Computation inside `Match.create_model`: look up `params['vsini']`
(`none` = `KeyError`), broaden the reference flux and uncertainty, fit the
continuum spline to `s_targ / s_mod`, and scale both by it.  Returns the
`(s_mod, serr_mod, spl)` triple the method assigns. -/
def Match.modelOf (ext : ExtLib) (m : Match) (q : Params) :
    Option (List ℚ × List ℚ × List ℚ) :=
  (Params.get? q "vsini").map fun pv =>
    let s_mod := broaden ext m.w pv.value m.s_ref
    let serr_mod := broaden ext m.w pv.value m.serr_ref
    let spl := ext.splineEval m.w (List.zipWith (· / ·) m.s_targ s_mod) m.knot_x
    (List.zipWith (· * ·) s_mod spl, List.zipWith (· * ·) serr_mod spl, spl)

/-- `Match.create_model(params)`: store the computed model in the instance
attributes `s_mod`, `serr_mod`, `spl`. -/
def Match.create_model (ext : ExtLib) (m : Match) (q : Params) : Option Match :=
  (m.modelOf ext q).map fun t =>
    { m with s_mod := some t.1, serr_mod := some t.2.1, spl := some t.2.2 }

/-- `Match.objective(params)`: call `create_model`, then compute residuals
and chi-square and return one or the other depending on `self.opt`.
Returns the mutated instance together with the Python return value. -/
def Match.objective (ext : ExtLib) (m : Match) (q : Params) :
    Option (Match × Option ObjVal) :=
  (m.modelOf ext q).map fun t =>
    ({ m with s_mod := some t.1, serr_mod := some t.2.1, spl := some t.2.2 },
     objectiveBody ext m.mode m.opt m.s_targ m.serr_targ t.1 t.2.1)

/-- The parameters `Match.best_fit` actually hands to the optimizer: a
fresh container when the caller passes none, then unconditionally
`params.add('vsini', value=1.0, min=0.0, max=10.0)` — a dictionary
assignment that replaces any caller-supplied `vsini` entry. -/
def Match.bestFitStartParams (params0 : Option Params) : Params :=
  Params.add (params0.getD []) "vsini" 1 (some 0) (some 10) true

/-- `np.sum(x**2)` applied to an objective return value. -/
def sumSq : ObjVal → ℚ
  | .vec r => chiSquare r
  | .scalar c => c ^ 2

/-- `Match.best_fit(params=None)`: run the optimizer selected by
`self.opt`, re-evaluate the objective at the resulting parameters to set
`best_chisq` (summing squared residuals in the `lm` branch), store the
resulting parameters as `best_params`, and return `best_chisq`.  `none`
models the `NameError` on unrecognized `opt` (the branch leaves `out`
undefined) and the `TypeError` from `np.sum(None**2)` (unreachable in the
`lm` branch, where the objective always returns a vector). -/
def Match.best_fit (ext : ExtLib) (m : Match) (params0 : Option Params) :
    Option (Match × ObjVal) :=
  let params := Match.bestFitStartParams params0
  let objFn : Params → Option ObjVal :=
    fun q => (m.objective ext q).bind (fun r => r.2)
  if m.opt = "lm" then
    let outp := ext.minimizeLm objFn params
    match m.objective ext outp with
    | some (m2, some v) =>
        let chisq : ObjVal := .scalar (sumSq v)
        some ({ m2 with best_chisq := some chisq, best_params := outp }, chisq)
    | some (_, none) => none
    | none => none
  else if m.opt = "nelder" then
    let outp := ext.minimizeNelder objFn params
    match m.objective ext outp with
    | some (m2, some v) =>
        some ({ m2 with best_chisq := some v, best_params := outp }, v)
    | some (_, none) => none
    | none => none
  else none

/-- `Match.best_residuals()`: recompute residuals from the target spectrum
and the last stored model.  Reading a never-assigned `s_mod` (or
`serr_mod`) raises `AttributeError` — the method performs no explicit
state check of its own. -/
def Match.best_residuals (ext : ExtLib) (m : Match) : Except PyErr (List ℚ) :=
  match m.s_mod with
  | none => .error (.attributeError "s_mod")
  | some sm =>
    if m.mode = "normalized" then
      match m.serr_mod with
      | none => .error (.attributeError "serr_mod")
      | some sem =>
          .ok (List.zipWith (· / ·) (List.zipWith (· - ·) m.s_targ sm)
            (List.zipWith (fun a b => ext.sqrtFn (a ^ 2 + b ^ 2))
              m.serr_targ sem))
    else
      .ok (List.zipWith (· - ·) m.s_targ sm)

/-- Residuals of the objective re-evaluated from scratch at a given
parameter set — the quantity `Match.best_fit` squares and sums to obtain
`best_chisq`. -/
def Match.residAt (ext : ExtLib) (m : Match) (q : Params) : Option (List ℚ) :=
  (m.modelOf ext q).map fun t =>
    residualsCalc ext m.mode m.s_targ m.serr_targ t.1 t.2.1

/-- State of a `MatchLincomb` instance.  `s_refs` holds the
already-broadened `(flux, uncertainty)` rows of each reference spectrum
(broadening happens once in the constructor). -/
structure MatchLincomb where
  w : List ℚ
  s_targ : List ℚ
  serr_targ : List ℚ
  num_refs : ℕ
  s_refs : List (List ℚ × List ℚ)
  best_params : Params
  best_chisq : Option ObjVal
  mode : String
  opt : String
  knot_x : List ℚ
  s_mod : Option (List ℚ)
  serr_mod : Option (List ℚ)
  spl : Option (List ℚ)
  deriving DecidableEq, Repr

/-- The coefficient parameter names `'coeff_{0:d}'.format(i)`. -/
def coeffName (i : ℕ) : String := "coeff_" ++ toString i

/-- `WIDTH = 1e-3`, the width of the Gaussian prior in
`MatchLincomb.objective`. -/
def WIDTH : ℚ := 1 / 1000

/-- `MatchLincomb.__init__`: copy the inputs, broaden each reference
spectrum's flux and uncertainty with its fixed per-reference `vsini`
(`none` models the `IndexError` when the `vsini` list is shorter than the
reference list), and compute the same five spline knots as `Match`. -/
def MatchLincomb.init (ext : ExtLib) (wav s_t serr_t : List ℚ)
    (s_refs : List (List ℚ × List ℚ)) (vsini : List ℚ) (mode opt : String) :
    Option MatchLincomb := do
  let num_refs := s_refs.length
  let bro ← (List.range num_refs).mapM fun i => do
    let r ← s_refs[i]?
    let v ← vsini[i]?
    pure (broaden ext wav v r.1, broaden ext wav v r.2)
  let kx ← knots wav
  pure { w := wav, s_targ := s_t, serr_targ := serr_t, num_refs := num_refs,
         s_refs := bro, best_params := [], best_chisq := none,
         mode := mode, opt := opt, knot_x := kx,
         s_mod := none, serr_mod := none, spl := none }

/-- Computation inside `MatchLincomb.create_model` (the override): start
from zeros, accumulate `coeff_i * s_refs[i]` for flux and uncertainty
(`none` models the `KeyError`/`IndexError` from a missing coefficient or
reference), then apply the identical continuum-spline step. -/
def MatchLincomb.modelOf (ext : ExtLib) (m : MatchLincomb) (q : Params) :
    Option (List ℚ × List ℚ × List ℚ) := do
  let terms ← (List.range m.num_refs).mapM fun i => do
    let r ← m.s_refs[i]?
    let c ← (Params.get? q (coeffName i)).map ParamEntry.value
    pure (r, c)
  let s_mod := terms.foldl
    (fun acc t => List.zipWith (· + ·) acc (t.1.1.map (fun x => x * t.2)))
    (List.replicate m.w.length 0)
  let serr_mod := terms.foldl
    (fun acc t => List.zipWith (· + ·) acc (t.1.2.map (fun x => x * t.2)))
    (List.replicate m.w.length 0)
  let spl := ext.splineEval m.w (List.zipWith (· / ·) m.s_targ s_mod) m.knot_x
  pure (List.zipWith (· * ·) s_mod spl, List.zipWith (· * ·) serr_mod spl, spl)

/-- `super().objective(params)` as seen from `MatchLincomb`: the body of
`Match.objective`, but dispatching to `MatchLincomb.create_model`. -/
def MatchLincomb.superObjective (ext : ExtLib) (m : MatchLincomb)
    (q : Params) : Option (MatchLincomb × Option ObjVal) :=
  (m.modelOf ext q).map fun t =>
    ({ m with s_mod := some t.1, serr_mod := some t.2.1, spl := some t.2.2 },
     objectiveBody ext m.mode m.opt m.s_targ m.serr_targ t.1 t.2.1)

/-- Sum of the current coefficient values `Σ params['coeff_i'].value`. -/
def MatchLincomb.coeffSum (m : MatchLincomb) (q : Params) : Option ℚ :=
  ((List.range m.num_refs).mapM fun i =>
    (Params.get? q (coeffName i)).map ParamEntry.value).map List.sum

/-- `MatchLincomb.objective(params)`: call the superclass objective, then
add the Gaussian prior `(sum_coeff - 1)**2 / (2*WIDTH**2)` to its return
value with `+=`.  When the superclass returned a residual vector (`opt ==
'lm'`), numpy broadcasting adds the prior to every element; when it
returned `None` (unrecognized `opt`), `None + float` raises `TypeError`,
modelled as `none`. -/
def MatchLincomb.objective (ext : ExtLib) (m : MatchLincomb) (q : Params) :
    Option (MatchLincomb × ObjVal) := do
  let (m2, base) ← m.superObjective ext q
  let sum_coeff ← m.coeffSum q
  let prior := (sum_coeff - 1) ^ 2 / (2 * WIDTH ^ 2)
  match base with
  | some (.scalar c) => some (m2, .scalar (c + prior))
  | some (.vec r) => some (m2, .vec (r.map (fun x => x + prior)))
  | none => none

/-- `MatchLincomb.add_lincomb_params(params)`: add the fixed `num_refs`
parameter and one `coeff_i` per reference, each initialized to
`1/num_refs` with bounds `[0, 1]`. -/
def MatchLincomb.add_lincomb_params (m : MatchLincomb) (ps : Params) :
    Params :=
  let ps1 := Params.add ps "num_refs" m.num_refs none none false
  (List.range m.num_refs).foldl
    (fun acc i =>
      Params.add acc (coeffName i) (1 / (m.num_refs : ℚ)) (some 0) (some 1)
        true)
    ps1

/-- `MatchLincomb.best_fit()`: build the linear-combination parameters,
always minimize with `method='nelder'` (never the least-squares driver,
whatever `self.opt` holds), store the resulting parameters, and store and
return `self.objective(self.best_params)` — the raw objective value,
prior term included, with no independent recomputation. -/
def MatchLincomb.best_fit (ext : ExtLib) (m : MatchLincomb) :
    Option (MatchLincomb × ObjVal) := do
  let params := m.add_lincomb_params []
  let outp := ext.minimizeNelder
    (fun q => (MatchLincomb.objective ext m q).map (fun r => r.2)) params
  let m1 := { m with best_params := outp }
  let (m2, v) ← MatchLincomb.objective ext m1 outp
  pure ({ m2 with best_chisq := some v }, v)

/-! Concrete instantiations used to exhibit witnesses and counterexamples:
a six-point grid, constant spectra, and a trivial `ExtLib` (identity
convolution, constant-one spline, identity minimizers — all legitimate
instantiations of the opaque collaborators). -/

/-- A six-point wavelength grid. -/
def w0 : List ℚ := [1, 2, 3, 4, 5, 6]

/-- Constant flux one. -/
def ones6 : List ℚ := [1, 1, 1, 1, 1, 1]

/-- Constant flux two. -/
def twos6 : List ℚ := [2, 2, 2, 2, 2, 2]

/-- Zero uncertainties. -/
def zeros6 : List ℚ := [0, 0, 0, 0, 0, 0]

/-- A trivial instantiation of the external collaborators. -/
def ext0 : ExtLib :=
  { sqrtFn := fun x => x,
    splineEval := fun x _ _ => x.map (fun _ => 1),
    rotKernel := fun _ _ _ => ([], [1]),
    convolve1d := fun sp _ => sp,
    minimizeLm := fun _ p => p,
    minimizeNelder := fun _ p => p }

/-- The `Match` produced by `Match.init w0 twos6 zeros6 ones6 zeros6
"default" "lm"` (fresh: no model attributes assigned yet). -/
def m0 : Match :=
  { w := w0, s_targ := twos6, serr_targ := zeros6, s_ref := ones6,
    serr_ref := zeros6, best_params := [], best_chisq := none,
    mode := "default", opt := "lm", knot_x := [2, 3, 4, 5, 6],
    s_mod := none, serr_mod := none, spl := none }

/-- The same instance with an unrecognized optimizer kind. -/
def m0foo : Match := { m0 with opt := "foo" }

/-- The `MatchLincomb` produced by `MatchLincomb.init ext0 w0 twos6 zeros6
[(ones6, zeros6)] [0] "default" "nelder"`. -/
def ml0 : MatchLincomb :=
  { w := w0, s_targ := twos6, serr_targ := zeros6, num_refs := 1,
    s_refs := [(ones6, zeros6)], best_params := [], best_chisq := none,
    mode := "default", opt := "nelder", knot_x := [2, 3, 4, 5, 6],
    s_mod := none, serr_mod := none, spl := none }

/-- The same linear-combination instance constructed with `opt='lm'` (the
constructor's default optimizer kind). -/
def mlLm : MatchLincomb := { ml0 with opt := "lm" }

/-- A parameter container holding a single coefficient of value one. -/
def qc : Params := [("coeff_0", ⟨1, some 0, some 1, true⟩)]

/-- A caller-supplied parameter container whose `vsini` starting value is
5 (with the usual bounds). -/
def p5 : Params := [("vsini", ⟨5, some 0, some 10, true⟩)]

/-- A grid of length exactly six, for the knot-placement edge case. -/
def wc5 : List ℚ := [10, 20, 30, 40, 50, 60]

/-- Whether an objective return value is a scalar. -/
def ObjVal.isScalar : ObjVal → Bool
  | .scalar _ => true
  | .vec _ => false

/-! Helper lemmas. -/

/-- After `params.add(n, ...)`, looking up `n` yields exactly the entry
just added (lmfit's `add` is a dictionary assignment). -/
theorem Params.get?_add_self (ps : Params) (n : String) (v : ℚ)
    (mn mx : Option ℚ) (vr : Bool) :
    Params.get? (Params.add ps n v mn mx vr) n = some ⟨v, mn, mx, vr⟩ := by
  induction ps with
  | nil => simp [Params.add, Params.hasKey, Params.get?]
  | cons kv tl ih =>
    by_cases hk : kv.1 = n
    · simp [Params.add, Params.hasKey, Params.get?, hk]
    · by_cases ht : Params.hasKey tl n
      · simp [Params.add, ht] at ih
        simp [Params.add, Params.hasKey, Params.get?, hk, ht, ih]
      · simp [Params.add, ht] at ih
        simp [Params.add, Params.hasKey, Params.get?, hk, ht, ih]

/-- `Match.modelOf` reads only the grid, target, reference and knots. -/
theorem Match.modelOf_core_fields (ext : ExtLib) (m1 m2 : Match) (q : Params)
    (hw : m1.w = m2.w) (ht : m1.s_targ = m2.s_targ)
    (hr : m1.s_ref = m2.s_ref) (he : m1.serr_ref = m2.serr_ref)
    (hk : m1.knot_x = m2.knot_x) :
    Match.modelOf ext m1 q = Match.modelOf ext m2 q := by
  simp only [Match.modelOf, hw, ht, hr, he, hk]

/-- `MatchLincomb.modelOf` reads only the grid, target, references and
knots. -/
theorem MatchLincomb.modelOf_ref_fields (ext : ExtLib) (m1 m2 : MatchLincomb)
    (q : Params) (hw : m1.w = m2.w) (ht : m1.s_targ = m2.s_targ)
    (hn : m1.num_refs = m2.num_refs) (hr : m1.s_refs = m2.s_refs)
    (hk : m1.knot_x = m2.knot_x) :
    MatchLincomb.modelOf ext m1 q = MatchLincomb.modelOf ext m2 q := by
  simp only [MatchLincomb.modelOf, hw, ht, hn, hr, hk]

/-- A `mapM` of in-bounds index reads succeeds. -/
theorem mapM_getElem_isSome (w : List ℚ) (l : List ℕ)
    (h : ∀ i ∈ l, i < w.length) :
    ∃ ks, l.mapM (fun i => w[i]?) = some ks := by
  induction l with
  | nil => exact ⟨[], rfl⟩
  | cons a tl ih =>
    obtain ⟨ks, hks⟩ := ih (fun i hi => h i (List.mem_cons_of_mem _ hi))
    have ha : a < w.length := h a (List.mem_cons_self a tl)
    refine ⟨w.get ⟨a, ha⟩ :: ks, ?_⟩
    rw [List.mapM_cons, List.getElem?_eq_getElem ha, hks]
    rfl

/-- On any grid of length at least six the knot computation succeeds. -/
theorem knots_isSome (w : List ℚ) (h : 6 ≤ w.length) :
    ∃ ks, knots w = some ks := by
  apply mapM_getElem_isSome
  intro i hi
  simp only [knotIndices, List.mem_map, List.mem_range] at hi
  obtain ⟨k, hk5, rfl⟩ := hi
  interval_cases k <;> omega

/-! Claim theorems. -/

/-- Claim C6 (corrected), counterexample: passing an initial parameter
container whose `vsini` value is 5 does not make the optimization start
from 5 — `best_fit` unconditionally re-adds `vsini` with value 1, so the
parameters handed to the optimizer (and, with an identity minimizer, the
recorded best parameters) carry `vsini = 1`, not the caller's 5. -/
theorem bestFit_overwrites_vsini_counterexample :
    (Params.get? p5 "vsini").map ParamEntry.value = some 5 ∧
    Match.bestFitStartParams (some p5) =
      [("vsini", ⟨1, some 0, some 10, true⟩)] ∧
    (Match.best_fit ext0 m0 (some p5)).map
      (fun t => (Params.get? t.1.best_params "vsini").map ParamEntry.value) =
      some (some 1) ∧
    (5 : ℚ) ≠ 1 := by decide

/-- Claim C6 (amended): whatever initial parameters the caller passes,
the container `best_fit` hands to the optimizer holds `vsini` with value
1.0 and bounds `[0, 10]` — a caller-supplied `vsini` starting value is
always overwritten; the default is not a fallback but unconditional. -/
theorem bestFit_start_vsini_always_default (params0 : Option Params) :
    Params.get? (Match.bestFitStartParams params0) "vsini" =
      some ⟨1, some 0, some 10, true⟩ :=
  Params.get?_add_self _ _ _ _ _ _

/-- Claim C7 (corrected), counterexample: constructing a `Match` whose
target flux has length 3 on a grid of length 6 succeeds — no
`ShapeMismatch` (nor any other) error is raised; the mismatched data is
silently stored. -/
theorem init_no_shape_check_counterexample :
    (Match.init w0 [1, 2, 3] [0] ones6 zeros6 "default" "lm").map
      (fun m => (m.s_targ.length, m.w.length)) = some (3, 6) ∧
    (3 : ℕ) ≠ 6 := by decide

/-- Claim C7 (amended): construction performs no length validation at
all.  On any grid long enough for the knot computation (length ≥ 6),
`Match.__init__` succeeds for target and reference sequences of arbitrary
lengths, storing them as given. -/
theorem init_accepts_any_shapes (w st se sr ser : List ℚ) (mo op : String)
    (h : 6 ≤ w.length) :
    ∃ m, Match.init w st se sr ser mo op = some m ∧
      m.w = w ∧ m.s_targ = st ∧ m.serr_targ = se ∧ m.s_ref = sr ∧
      m.serr_ref = ser := by
  obtain ⟨ks, hks⟩ := knots_isSome w h
  refine ⟨{ w := w, s_targ := st, serr_targ := se, s_ref := sr,
            serr_ref := ser, best_params := [], best_chisq := none,
            mode := mo, opt := op, knot_x := ks, s_mod := none,
            serr_mod := none, spl := none },
          ?_, rfl, rfl, rfl, rfl, rfl⟩
  rw [Match.init, hks]
  rfl

/-- Claim C7 witness: a concrete mismatched construction (target length
3, grid length 6) goes through `init_accepts_any_shapes`. -/
theorem init_accepts_any_shapes_witness :
    6 ≤ w0.length ∧
    ∃ m, Match.init w0 [1, 2, 3] [0] ones6 zeros6 "default" "lm" = some m ∧
      m.w = w0 ∧ m.s_targ = [1, 2, 3] ∧ m.serr_targ = [0] ∧
      m.s_ref = ones6 ∧ m.serr_ref = zeros6 :=
  ⟨by decide,
   init_accepts_any_shapes w0 [1, 2, 3] [0] ones6 zeros6 "default" "lm"
     (by decide)⟩

/-- Claim C8 (corrected), counterexample: on a freshly constructed
`Match`, `best_residuals` does fail rather than return a value, but the
failure is the implicit `AttributeError` from reading the never-assigned
`s_mod` attribute — not an explicit `InvalidState` error; no such check
exists in the code. -/
theorem best_residuals_attribute_error_counterexample :
    Match.init w0 twos6 zeros6 ones6 zeros6 "default" "lm" = some m0 ∧
    Match.best_residuals ext0 m0 = .error (.attributeError "s_mod") ∧
    PyErr.attributeError "s_mod" ≠ PyErr.invalidState :=
  ⟨by decide, rfl, by decide⟩

/-- Claim C8 (amended): on every freshly constructed `Match` (no
`best_fit`/`objective`/`create_model` call yet), `best_residuals` raises —
specifically the implicit `AttributeError` on `s_mod` — rather than
returning a value. -/
theorem best_residuals_fresh_raises (ext : ExtLib) (w st se sr ser : List ℚ)
    (mo op : String) (m : Match)
    (h : Match.init w st se sr ser mo op = some m) :
    Match.best_residuals ext m = .error (.attributeError "s_mod") := by
  rcases hk : knots w with _ | ks
  · simp [Match.init, hk] at h
  · simp [Match.init, hk] at h
    subst h
    rfl

/-- Claim C8 witness: the amended theorem applied to the concrete fresh
instance `m0`. -/
theorem best_residuals_fresh_raises_witness :
    Match.init w0 twos6 zeros6 ones6 zeros6 "default" "lm" = some m0 ∧
    Match.best_residuals ext0 m0 = .error (.attributeError "s_mod") :=
  ⟨by decide,
   best_residuals_fresh_raises ext0 w0 twos6 zeros6 ones6 zeros6 "default"
     "lm" m0 (by decide)⟩

/-- Claim C10 (confirmed): when the optimizer kind is neither `lm` nor
`nelder`, `objective` still builds the model (mutating `s_mod` via
`create_model`) and then falls through both branches, returning `None` —
no error is reported for the unrecognized kind. -/
theorem objective_unknown_opt_returns_none (ext : ExtLib) (m : Match)
    (q : Params) (h1 : m.opt ≠ "lm") (h2 : m.opt ≠ "nelder") (mc : Match)
    (hc : Match.create_model ext m q = some mc) :
    Match.objective ext m q = some (mc, none) ∧ mc.s_mod.isSome := by
  rcases ho : Match.modelOf ext m q with _ | t
  · simp [Match.create_model, ho] at hc
  · simp [Match.create_model, ho] at hc
    subst hc
    refine ⟨?_, by simp⟩
    rw [Match.objective, ho]
    simp [objectiveBody, h1, h2]

/-- Claim C10 witness: the concrete instance with `opt = "foo"`. -/
theorem objective_unknown_opt_returns_none_witness :
    m0foo.opt ≠ "lm" ∧ m0foo.opt ≠ "nelder" ∧
    ∃ mc, Match.create_model ext0 m0foo (Match.bestFitStartParams none) =
        some mc ∧
      Match.objective ext0 m0foo (Match.bestFitStartParams none) =
        some (mc, none) ∧
      mc.s_mod.isSome := by
  refine ⟨by decide, by decide, ?_⟩
  match hc : Match.create_model ext0 m0foo (Match.bestFitStartParams none) with
  | some mc =>
    have hr := objective_unknown_opt_returns_none ext0 m0foo
      (Match.bestFitStartParams none) (by decide) (by decide) mc hc
    exact ⟨mc, rfl, hr.1, hr.2⟩
  | none => exact absurd hc (by decide)

/-- Claim C1 (confirmed): `objective` invokes `create_model` (the
returned state is exactly its result), computes residuals as target flux
minus model flux — divided element-wise by
`sqrt(serr_targ**2 + serr_mod**2)` when `mode = 'normalized'` — and
returns the raw residual sequence when `opt = 'lm'` and the scalar sum of
squared residuals when `opt = 'nelder'`. -/
theorem objective_residual_branching (ext : ExtLib) (m : Match) (q : Params)
    (m2 : Match) (v : Option ObjVal)
    (h : Match.objective ext m q = some (m2, v)) :
    ∃ mc, Match.create_model ext m q = some mc ∧ m2 = mc ∧
      ∃ sm sem, m2.s_mod = some sm ∧ m2.serr_mod = some sem ∧
        (m.opt = "lm" →
          v = some (.vec (residualsCalc ext m.mode m.s_targ m.serr_targ sm
            sem))) ∧
        (m.opt = "nelder" →
          v = some (.scalar (chiSquare (residualsCalc ext m.mode m.s_targ
            m.serr_targ sm sem)))) ∧
        residualsCalc ext m.mode m.s_targ m.serr_targ sm sem =
          (if m.mode = "normalized" then
            List.zipWith (· / ·) (List.zipWith (· - ·) m.s_targ sm)
              (List.zipWith (fun a b => ext.sqrtFn (a ^ 2 + b ^ 2))
                m.serr_targ sem)
          else List.zipWith (· - ·) m.s_targ sm) := by
  rcases ho : Match.modelOf ext m q with _ | t
  · simp [Match.objective, ho] at h
  · simp [Match.objective, ho] at h
    obtain ⟨hm2, hv⟩ := h
    subst hm2
    refine ⟨_, by simp [Match.create_model, ho], rfl, t.1, t.2.1, by simp,
      by simp, ?_, ?_, rfl⟩
    · intro hopt
      rw [← hv]
      simp [objectiveBody, hopt]
    · intro hopt
      rw [← hv]
      simp [objectiveBody, hopt]

/-- Claim C1 witness: the branching theorem applied to the concrete
least-squares instance `m0` at the default starting parameters. -/
theorem objective_residual_branching_witness :
    ∃ m2 v, Match.objective ext0 m0 (Match.bestFitStartParams none) =
        some (m2, v) ∧
      ∃ mc, Match.create_model ext0 m0 (Match.bestFitStartParams none) =
          some mc ∧ m2 = mc ∧
        ∃ sm sem, m2.s_mod = some sm ∧ m2.serr_mod = some sem ∧
          (m0.opt = "lm" →
            v = some (.vec (residualsCalc ext0 m0.mode m0.s_targ m0.serr_targ
              sm sem))) := by
  match h : Match.objective ext0 m0 (Match.bestFitStartParams none) with
  | some (m2, v) =>
    obtain ⟨mc, hmc, hm2, sm, sem, hsm, hsem, hlm, _, _⟩ :=
      objective_residual_branching ext0 m0 (Match.bestFitStartParams none)
        m2 v h
    exact ⟨m2, v, rfl, mc, hmc, hm2, sm, sem, hsm, hsem, hlm⟩
  | none => exact absurd h (by decide)

/-- Claim C9 (confirmed): running `create_model` followed by `objective`
is deterministic — a second invocation with the same parameter values,
starting from the state the first invocation left behind (which differs
from the original only in the recomputed model attributes), reproduces
exactly the same state and the same residual value. -/
theorem createModel_objective_deterministic (ext : ExtLib) (m : Match)
    (q : Params) (mA : Match) (v : Option ObjVal)
    (h : (Match.create_model ext m q).bind
      (fun s1 => Match.objective ext s1 q) = some (mA, v)) :
    (Match.create_model ext mA q).bind
      (fun s1 => Match.objective ext s1 q) = some (mA, v) := by
  rcases ho : Match.modelOf ext m q with _ | t
  · simp [Match.create_model, ho] at h
  · have hM1 : Match.modelOf ext
        { m with s_mod := some t.1, serr_mod := some t.2.1, spl := some t.2.2 }
        q = some t :=
      (Match.modelOf_core_fields ext
        { m with s_mod := some t.1, serr_mod := some t.2.1, spl := some t.2.2 }
        m q rfl rfl rfl rfl rfl).trans ho
    simp [Match.create_model, Match.objective, ho, hM1] at h
    obtain ⟨hmA, hv⟩ := h
    subst hmA
    subst hv
    have hMA : Match.modelOf ext
        { m with s_mod := some t.1, serr_mod := some t.2.1, spl := some t.2.2 }
        q = some t := hM1
    simp [Match.create_model, Match.objective, hMA]

/-- Claim C9 witness: a concrete two-run equality on `m0`. -/
theorem createModel_objective_deterministic_witness :
    ∃ mA v, (Match.create_model ext0 m0 (Match.bestFitStartParams none)).bind
        (fun s1 => Match.objective ext0 s1 (Match.bestFitStartParams none)) =
        some (mA, v) ∧
      (Match.create_model ext0 mA (Match.bestFitStartParams none)).bind
        (fun s1 => Match.objective ext0 s1 (Match.bestFitStartParams none)) =
        some (mA, v) := by
  match h : (Match.create_model ext0 m0 (Match.bestFitStartParams none)).bind
      (fun s1 => Match.objective ext0 s1 (Match.bestFitStartParams none)) with
  | some (mA, v) =>
    exact ⟨mA, v, rfl,
      createModel_objective_deterministic ext0 m0
        (Match.bestFitStartParams none) mA v h⟩
  | none => exact absurd h (by decide)

/-- Claim C2 (corrected), counterexample: with the constructor's default
optimizer kind `opt='lm'`, `MatchLincomb.objective` does not return a
scalar — the shared logic returns the residual vector and the prior is
broadcast-added to every element, so the result is a sequence. -/
theorem lincomb_objective_lm_not_scalar_counterexample :
    MatchLincomb.init ext0 w0 twos6 zeros6 [(ones6, zeros6)] [0] "default"
      "lm" = some mlLm ∧
    (MatchLincomb.objective ext0 mlLm qc).map (fun t => t.2) =
      some (.vec [1, 1, 1, 1, 1, 1]) ∧
    (MatchLincomb.objective ext0 mlLm qc).map
      (fun t => ObjVal.isScalar t.2) = some false :=
  ⟨by with_unfolding_all rfl, by with_unfolding_all rfl,
   by with_unfolding_all rfl⟩

/-- Claim C2 (amended): when the optimizer-kind field is `'nelder'`,
`MatchLincomb.objective` returns the scalar base chi-square from the
shared residual/model logic plus the prior
`(Σ coeff_i − 1)² / (2·WIDTH²)` with `WIDTH = 1e-3`.  (When the field is
`'lm'` the base is the residual vector and the prior is added
element-wise, yielding a vector, and an unrecognized kind raises — so the
scalar form is not independent of the optimizer-kind field.) -/
theorem lincomb_objective_nelder_prior (ext : ExtLib) (m : MatchLincomb)
    (q : Params) (m2 : MatchLincomb) (v : ObjVal) (hn : m.opt = "nelder")
    (h : MatchLincomb.objective ext m q = some (m2, v)) :
    ∃ c s, m.superObjective ext q = some (m2, some (.scalar c)) ∧
      m.coeffSum q = some s ∧
      v = .scalar (c + (s - 1) ^ 2 / (2 * WIDTH ^ 2)) := by
  rcases ho : MatchLincomb.modelOf ext m q with _ | t
  · simp [MatchLincomb.objective, MatchLincomb.superObjective, ho] at h
  · have hs : m.superObjective ext q =
        some ({ m with s_mod := some t.1, serr_mod := some t.2.1, spl := some t.2.2 },
          some (.scalar (chiSquare (residualsCalc ext m.mode m.s_targ
            m.serr_targ t.1 t.2.1)))) := by
      simp [MatchLincomb.superObjective, ho, objectiveBody, hn]
    rcases hcs : m.coeffSum q with _ | s
    · simp [MatchLincomb.objective, hs, hcs] at h
    · simp [MatchLincomb.objective, hs, hcs] at h
      obtain ⟨hm2, hv⟩ := h
      subst hm2
      exact ⟨_, s, hs, rfl, hv.symm⟩

/-- Claim C2 witness: the amended theorem applied to the concrete
direct-search instance `ml0` with a unit coefficient. -/
theorem lincomb_objective_nelder_prior_witness :
    ml0.opt = "nelder" ∧
    ∃ m2 v, MatchLincomb.objective ext0 ml0 qc = some (m2, v) ∧
      ∃ c s, ml0.superObjective ext0 qc = some (m2, some (.scalar c)) ∧
        ml0.coeffSum qc = some s ∧
        v = .scalar (c + (s - 1) ^ 2 / (2 * WIDTH ^ 2)) := by
  refine ⟨by decide, ?_⟩
  match h : MatchLincomb.objective ext0 ml0 qc with
  | some (m2, v) =>
    exact ⟨m2, v, rfl,
      lincomb_objective_nelder_prior ext0 ml0 qc m2 v (by decide) h⟩
  | none => exact absurd h (by with_unfolding_all decide)

/-- The value `objective` returns is determined by the recomputed
residuals (`residAt`), branching on the optimizer kind; the mutated state
keeps `best_params` and `best_chisq` untouched. -/
theorem objective_residAt (ext : ExtLib) (m : Match) (q : Params)
    (mm : Match) (vv : Option ObjVal)
    (hob : Match.objective ext m q = some (mm, vv)) :
    ∃ r, Match.residAt ext m q = some r ∧
      (m.opt = "lm" → vv = some (.vec r)) ∧
      (m.opt = "nelder" → vv = some (.scalar (chiSquare r))) ∧
      mm.best_params = m.best_params ∧ mm.best_chisq = m.best_chisq := by
  rcases ho : Match.modelOf ext m q with _ | t
  · simp [Match.objective, ho] at hob
  · simp [Match.objective, ho] at hob
    obtain ⟨hmm, hvv⟩ := hob
    subst hmm
    refine ⟨residualsCalc ext m.mode m.s_targ m.serr_targ t.1 t.2.1,
      by simp [Match.residAt, ho], ?_, ?_, by simp, by simp⟩
    · intro hopt
      rw [← hvv]
      simp [objectiveBody, hopt]
    · intro hopt
      rw [← hvv]
      simp [objectiveBody, hopt]

/-- Claim C4 (confirmed): after `Match.best_fit`, the optimizer's
resulting parameters are recorded as `best_params`; the stored (and
returned) best chi-square is the summed squared residual of the objective
re-evaluated at those parameters — for both the `lm` and `nelder`
optimizer kinds.  (The abstract minimizers return only parameters, so no
optimizer-reported objective value even exists to be stored.) -/
theorem best_fit_recomputes_chisq (ext : ExtLib) (m : Match)
    (p0 : Option Params) (m2 : Match) (v : ObjVal)
    (h : Match.best_fit ext m p0 = some (m2, v)) :
    m2.best_chisq = some v ∧
    (m.opt = "lm" → m2.best_params =
      ext.minimizeLm (fun q => (Match.objective ext m q).bind (fun r => r.2))
        (Match.bestFitStartParams p0)) ∧
    (m.opt = "nelder" → m2.best_params =
      ext.minimizeNelder
        (fun q => (Match.objective ext m q).bind (fun r => r.2))
        (Match.bestFitStartParams p0)) ∧
    ∃ r, Match.residAt ext m m2.best_params = some r ∧
      v = .scalar (chiSquare r) := by
  by_cases hlm : m.opt = "lm"
  · simp only [Match.best_fit] at h
    rw [if_pos hlm] at h
    rcases hob : Match.objective ext m
        (ext.minimizeLm
          (fun q => (Match.objective ext m q).bind (fun r => r.2))
          (Match.bestFitStartParams p0)) with _ | ⟨mm, vv⟩
    · rw [hob] at h
      simp at h
    · rw [hob] at h
      cases vv with
      | none => simp at h
      | some vvv =>
        simp at h
        obtain ⟨hm2, hv⟩ := h
        subst hm2
        subst hv
        obtain ⟨r, hr, hlmv, _, _, _⟩ :=
          objective_residAt ext m _ mm (some vvv) hob
        have hvec : vvv = .vec r := Option.some.inj (hlmv hlm)
        subst hvec
        refine ⟨by simp, fun _ => by simp, ?_, r, by simpa using hr, rfl⟩
        intro hn
        rw [hlm] at hn
        simp at hn
  · by_cases hnd : m.opt = "nelder"
    · simp only [Match.best_fit] at h
      rw [if_neg hlm, if_pos hnd] at h
      rcases hob : Match.objective ext m
          (ext.minimizeNelder
            (fun q => (Match.objective ext m q).bind (fun r => r.2))
            (Match.bestFitStartParams p0)) with _ | ⟨mm, vv⟩
      · rw [hob] at h
        simp at h
      · rw [hob] at h
        cases vv with
        | none => simp at h
        | some vvv =>
          simp at h
          obtain ⟨hm2, hv⟩ := h
          subst hm2
          subst hv
          obtain ⟨r, hr, _, hndv, _, _⟩ :=
            objective_residAt ext m _ mm (some vvv) hob
          have hsc : vvv = .scalar (chiSquare r) := Option.some.inj (hndv hnd)
          subst hsc
          refine ⟨by simp, ?_, fun _ => by simp, r, by simpa using hr, rfl⟩
          intro hl
          rw [hnd] at hl
          simp at hl
    · simp only [Match.best_fit] at h
      rw [if_neg hlm, if_neg hnd] at h
      simp at h

/-- Claim C4 witness: the concrete least-squares instance `m0` with the
default starting parameters. -/
theorem best_fit_recomputes_chisq_witness :
    ∃ m2 v, Match.best_fit ext0 m0 none = some (m2, v) ∧
      m2.best_chisq = some v ∧
      ∃ r, Match.residAt ext0 m0 m2.best_params = some r ∧
        v = .scalar (chiSquare r) := by
  match h : Match.best_fit ext0 m0 none with
  | some (m2, v) =>
    obtain ⟨h1, _, _, h4⟩ := best_fit_recomputes_chisq ext0 m0 none m2 v h
    exact ⟨m2, v, rfl, h1, h4⟩
  | none => exact absurd h (by with_unfolding_all decide)

/-- `MatchLincomb.best_fit` never consults the least-squares minimizer:
replacing it by any function leaves the result unchanged. -/
theorem MatchLincomb.best_fit_minlm (ext : ExtLib)
    (f : (Params → Option ObjVal) → Params → Params) (m : MatchLincomb) :
    MatchLincomb.best_fit { ext with minimizeLm := f } m =
      MatchLincomb.best_fit ext m := by
  cases ext
  rfl

/-- `MatchLincomb.objective` mutates only the model attributes: the
returned state keeps `best_params` and `best_chisq` untouched. -/
theorem lincomb_objective_state (ext : ExtLib) (m : MatchLincomb)
    (q : Params) (mm : MatchLincomb) (vv : ObjVal)
    (hob : MatchLincomb.objective ext m q = some (mm, vv)) :
    mm.best_params = m.best_params ∧ mm.best_chisq = m.best_chisq := by
  rcases ho : MatchLincomb.modelOf ext m q with _ | t
  · simp [MatchLincomb.objective, MatchLincomb.superObjective, ho] at hob
  · rcases hcs : m.coeffSum q with _ | s
    · simp [MatchLincomb.objective, MatchLincomb.superObjective, ho, hcs]
        at hob
    · simp [MatchLincomb.objective, MatchLincomb.superObjective, ho, hcs]
        at hob
      rcases hb : objectiveBody ext m.mode m.opt m.s_targ m.serr_targ t.1
          t.2.1 with _ | ov
      · simp [hb] at hob
      · cases ov with
        | vec r =>
          simp [hb] at hob
          obtain ⟨h1, _⟩ := hob
          rw [← h1]
          simp
        | scalar c =>
          simp [hb] at hob
          obtain ⟨h1, _⟩ := hob
          rw [← h1]
          simp

/-- Claim C3 (confirmed): `MatchLincomb.best_fit` runs the direct-search
minimizer unconditionally (the least-squares minimizer is never
consulted, whatever the optimizer-kind field holds), records the
minimizer's resulting parameters, and stores and returns as best
chi-square the objective value evaluated at those parameters — prior term
included, with no independent recomputation of a residual sum. -/
theorem lincomb_best_fit_nelder_stores_objective (ext : ExtLib)
    (f : (Params → Option ObjVal) → Params → Params) (m : MatchLincomb)
    (m2 : MatchLincomb) (v : ObjVal)
    (h : MatchLincomb.best_fit ext m = some (m2, v)) :
    MatchLincomb.best_fit { ext with minimizeLm := f } m = some (m2, v) ∧
    m2.best_params = ext.minimizeNelder
      (fun q => (MatchLincomb.objective ext m q).map (fun r => r.2))
      (m.add_lincomb_params []) ∧
    m2.best_chisq = some v ∧
    ∃ mm, MatchLincomb.objective ext
        { m with best_params := m2.best_params } m2.best_params =
        some (mm, v) := by
  refine ⟨(MatchLincomb.best_fit_minlm ext f m).trans h, ?_⟩
  set outp := ext.minimizeNelder
    (fun q => (MatchLincomb.objective ext m q).map (fun r => r.2))
    (m.add_lincomb_params []) with houtp
  simp only [MatchLincomb.best_fit, ← houtp] at h
  rcases hob : MatchLincomb.objective ext { m with best_params := outp }
      outp with _ | ⟨mm, vv⟩
  · rw [hob] at h
    simp at h
  · rw [hob] at h
    simp at h
    obtain ⟨hm2, hv⟩ := h
    subst hv
    obtain ⟨hbp, _⟩ := lincomb_objective_state ext _ _ mm vv hob
    have hbp2 : m2.best_params = outp := by
      rw [← hm2]
      simpa using hbp
    refine ⟨hbp2, by rw [← hm2], mm, ?_⟩
    rw [hbp2]
    exact hob

/-- Claim C3 witness: the concrete direct-search instance `ml0`, with an
identity function substituted for the least-squares minimizer. -/
theorem lincomb_best_fit_nelder_stores_objective_witness :
    ∃ m2 v, MatchLincomb.best_fit ext0 ml0 = some (m2, v) ∧
      m2.best_chisq = some v ∧
      ∃ mm, MatchLincomb.objective ext0
          { ml0 with best_params := m2.best_params } m2.best_params =
          some (mm, v) := by
  match h : MatchLincomb.best_fit ext0 ml0 with
  | some (m2, v) =>
    obtain ⟨_, _, h3, h4⟩ :=
      lincomb_best_fit_nelder_stores_objective ext0 (fun _ p => p) ml0 m2 v h
    exact ⟨m2, v, rfl, h3, h4⟩
  | none => exact absurd h (by with_unfolding_all decide)

/-- Claim C5 (corrected), counterexample: on a grid of length exactly 6
the knot spacing is `int(6/6) = 1` and the fifth knot index is `5 = n-1`
— the final grid point, not a strictly interior one; the constructed
`Match` stores the last wavelength (60) as its fifth knot. -/
theorem knots_endpoint_at_length_six_counterexample :
    (Match.init wc5 twos6 zeros6 ones6 zeros6 "default" "lm").map
      (fun m => m.knot_x) = some [20, 30, 40, 50, 60] ∧
    knotIndices wc5.length = [1, 2, 3, 4, 5] ∧
    wc5[5]? = some 60 ∧ wc5.length = 6 ∧ ¬ ((5 : ℕ) < 6 - 1) := by decide

/-- Claim C5 (amended): on every grid of length `n ≥ 7` (rather than
`n ≥ 6`), construction — of `Match` and of `MatchLincomb` alike —
computes exactly 5 spline knots, the i-th (`i = 1..5`, here indexed
`0..4`) being the grid value at index `(n / 6) * i`, and every knot index
lies strictly between `0` and `n - 1`; at `n = 6` the fifth knot falls on
the final grid point instead. -/
theorem knots_interior (w : List ℚ) (h : 7 ≤ w.length) :
    ∃ ks, knots w = some ks ∧ ks.length = 5 ∧
      (∀ i, i < 5 →
        ∃ j v, j = w.length / 6 * (i + 1) ∧ ks[i]? = some v ∧
          w[j]? = some v ∧ 1 ≤ j ∧ j < w.length - 1) ∧
      (∀ st se sr ser mo op mm,
        Match.init w st se sr ser mo op = some mm → mm.knot_x = ks) ∧
      (∀ ext st se refs vs mo op mm,
        MatchLincomb.init ext w st se refs vs mo op = some mm →
          mm.knot_x = ks) := by
  have h1 : w.length / 6 * 1 < w.length := by omega
  have h2 : w.length / 6 * 2 < w.length := by omega
  have h3 : w.length / 6 * 3 < w.length := by omega
  have h4 : w.length / 6 * 4 < w.length := by omega
  have h5 : w.length / 6 * 5 < w.length := by omega
  have hki : knotIndices w.length =
      [w.length / 6 * 1, w.length / 6 * 2, w.length / 6 * 3,
       w.length / 6 * 4, w.length / 6 * 5] := rfl
  have hks : knots w = some [w.get ⟨w.length / 6 * 1, h1⟩,
      w.get ⟨w.length / 6 * 2, h2⟩, w.get ⟨w.length / 6 * 3, h3⟩,
      w.get ⟨w.length / 6 * 4, h4⟩, w.get ⟨w.length / 6 * 5, h5⟩] := by
    rw [knots, hki, List.mapM_cons, List.getElem?_eq_getElem h1,
      List.mapM_cons, List.getElem?_eq_getElem h2, List.mapM_cons,
      List.getElem?_eq_getElem h3, List.mapM_cons,
      List.getElem?_eq_getElem h4, List.mapM_cons,
      List.getElem?_eq_getElem h5, List.mapM_nil]
    rfl
  refine ⟨_, hks, rfl, ?_, ?_, ?_⟩
  · intro i hi
    interval_cases i
    · exact ⟨w.length / 6 * 1, w.get ⟨w.length / 6 * 1, h1⟩, rfl, rfl,
        List.getElem?_eq_getElem h1, by omega, by omega⟩
    · exact ⟨w.length / 6 * 2, w.get ⟨w.length / 6 * 2, h2⟩, rfl, rfl,
        List.getElem?_eq_getElem h2, by omega, by omega⟩
    · exact ⟨w.length / 6 * 3, w.get ⟨w.length / 6 * 3, h3⟩, rfl, rfl,
        List.getElem?_eq_getElem h3, by omega, by omega⟩
    · exact ⟨w.length / 6 * 4, w.get ⟨w.length / 6 * 4, h4⟩, rfl, rfl,
        List.getElem?_eq_getElem h4, by omega, by omega⟩
    · exact ⟨w.length / 6 * 5, w.get ⟨w.length / 6 * 5, h5⟩, rfl, rfl,
        List.getElem?_eq_getElem h5, by omega, by omega⟩
  · intro st se sr ser mo op mm hmm
    simp [Match.init, hks] at hmm
    rw [← hmm]
    simp
  · intro ext st se refs vs mo op mm hmm
    rcases hbro : (List.range refs.length).mapM (fun i => do
        let r ← refs[i]?
        let v ← vs[i]?
        pure (broaden ext w v r.1, broaden ext w v r.2)) with _ | bro
    · rw [MatchLincomb.init] at hmm
      rw [hbro] at hmm
      simp at hmm
    · rw [MatchLincomb.init] at hmm
      rw [hbro] at hmm
      simp [hks] at hmm
      rw [← hmm]
      simp

/-- Claim C5 witness: the amended knot theorem applied to a concrete
grid of length 7. -/
theorem knots_interior_witness :
    (7 : ℕ) ≤ ([1, 2, 3, 4, 5, 6, 7] : List ℚ).length ∧
    ∃ ks, knots [1, 2, 3, 4, 5, 6, 7] = some ks ∧ ks.length = 5 ∧
      (∀ i, i < 5 →
        ∃ j v, j = ([1, 2, 3, 4, 5, 6, 7] : List ℚ).length / 6 * (i + 1) ∧
          ks[i]? = some v ∧ ([1, 2, 3, 4, 5, 6, 7] : List ℚ)[j]? = some v ∧
          1 ≤ j ∧ j < ([1, 2, 3, 4, 5, 6, 7] : List ℚ).length - 1) ∧
      (∀ st se sr ser mo op mm,
        Match.init [1, 2, 3, 4, 5, 6, 7] st se sr ser mo op = some mm →
          mm.knot_x = ks) ∧
      (∀ ext st se refs vs mo op mm,
        MatchLincomb.init ext [1, 2, 3, 4, 5, 6, 7] st se refs vs mo op =
          some mm → mm.knot_x = ks) :=
  ⟨by decide, knots_interior [1, 2, 3, 4, 5, 6, 7] (by decide)⟩
